import Mathlib

/-!
Verification development for the fullbase backend-as-a-service layer:
the dynamic schema manager (runtime DDL generation, catalog bookkeeping,
column introspection with auth-column redaction, a descriptor/column cache)
and the declarative function interpreter (transactional pipeline steps with
cross-step variable binding and a filter-tree compiler).

The Go sources are shallowly embedded: JSON-decoded `interface\x7b\x7d`
values become the inductive `Value`; Go maps become association lists;
the SQLite storage collaborator becomes an explicit state record; fallible
operations return `Except`/`Option`; a Go panic is a distinguished outcome.
-/

/-- A Go dynamic value as produced by JSON decoding into
`map[string]interface\x7b\x7d`: null, bool, number, string, array
(dynamic type `[]interface\x7b\x7d`) or object
(dynamic type `map[string]interface\x7b\x7d`). -/
inductive Value where
  | vNull
  | vBool (b : Bool)
  | vNum (n : Int)
  | vStr (s : String)
  | vArr (xs : List Value)
  | vObj (fs : List (String × Value))
deriving Repr

mutual

/-- Structural equality on dynamic values (Go `==` / SQLite value equality). -/
def Value.beq : Value → Value → Bool
  | .vNull, .vNull => true
  | .vBool a, .vBool b => a == b
  | .vNum a, .vNum b => a == b
  | .vStr a, .vStr b => a == b
  | .vArr a, .vArr b => Value.beqList a b
  | .vObj a, .vObj b => Value.beqObj a b
  | _, _ => false

/-- Elementwise equality of value lists. -/
def Value.beqList : List Value → List Value → Bool
  | [], [] => true
  | a :: xs, b :: ys => Value.beq a b && Value.beqList xs ys
  | _, _ => false

/-- Elementwise equality of key/value lists. -/
def Value.beqObj : List (String × Value) → List (String × Value) → Bool
  | [], [] => true
  | (k, a) :: xs, (l, b) :: ys => k == l && Value.beq a b && Value.beqObj xs ys
  | _, _ => false

end

instance : BEq Value := ⟨Value.beq⟩

/-- A Go `map[string]interface\x7b\x7d`, embedded as an association list
(first binding of a key wins). -/
abbrev GoMap := List (String × Value)

/-- Association-list lookup: `some v` when the key is present. -/
def lookupStr (m : GoMap) (k : String) : Option Value :=
  match m with
  | [] => none
  | (k', v) :: rest => if k' = k then some v else lookupStr rest k

/-- A Go map read `m[k]`: a missing key yields the zero value `nil`. -/
def goGet (m : GoMap) (k : String) : Value :=
  (lookupStr m k).getD .vNull

/-- A Go map write `m[k] = v`: replaces an existing binding, else appends. -/
def setKey (m : GoMap) (k : String) (v : Value) : GoMap :=
  match m with
  | [] => [(k, v)]
  | (k', v') :: rest => if k' = k then (k, v) :: rest else (k', v') :: setKey rest k v

/-- Lower-case an ASCII character (kernel-computable stand-in for
`Char.toLower`). -/
def lowerChar (c : Char) : Char :=
  if 65 ≤ c.toNat ∧ c.toNat ≤ 90 then Char.ofNat (c.toNat + 32) else c

/-- Go `strings.ToLower`, character by character. -/
def strToLower (s : String) : String := String.mk (s.data.map lowerChar)

/-- Go `strings.HasPrefix s t`. -/
def strStartsWith (s t : String) : Bool := t.data.isPrefixOf s.data

/-- Suffix test on the underlying character lists. -/
def strEndsWith (s t : String) : Bool := t.data.isSuffixOf s.data

/-- Go `v[1:]` on an ASCII-prefixed string: drop the leading character. -/
def strDrop1 (s : String) : String := String.mk s.data.tail

/-- Decimal digit character (`'0'` .. `'9'`). -/
def digitChar (d : Nat) : Char := Char.ofNat (48 + d % 10)

/-- The sixteen base-10 digits of `n`, most significant first. -/
def idDigits (n : Nat) : List Nat :=
  ((List.range 16).map (fun i => n / 10 ^ i % 10)).reverse

/-- Modelled from the spec: `utils.GenerateRandomString(16)` — the
collision-resistant random identifier generator collaborator (spec §6c),
whose source is outside this repository snapshot. It is modelled as a
deterministic fresh 16-character identifier drawn from a per-state counter
(`DB.nextId` below); each call consumes one counter value. -/
def idOfNat (n : Nat) : String :=
  String.mk ((idDigits n).map digitChar)

/-! ## Filter compiler (`applyFilter`, `Where`, `Or` in src/src/backend/api/database.go:986-1021)

A gorm query builder is embedded as the list of accumulated WHERE
conditions.  `query.Where(sql, v)` appends an AND-connected leaf,
`query.Or(sql, v)` an OR-connected one, and `query.Where(subQuery)`
appends the sub-builder's conditions as one parenthesised group.  SQL
joins the list left to right: the first condition has no connective, the
tag of each later condition supplies AND/OR. -/

/-- One accumulated gorm WHERE condition: a raw SQL leaf with one bound
argument, or a parenthesised group (an embedded sub-builder), each tagged
with its connective (`isOr`). -/
inductive QueryCond where
  | leaf (sql : String) (arg : Value) (isOr : Bool)
  | group (cs : List QueryCond) (isOr : Bool)
deriving Repr

/-- A gorm query builder: the list of accumulated WHERE conditions. -/
abbrev QB := List QueryCond

/-- `func Where(query, key, value)` — appends `key ++ " = ?"` as an
AND-connected condition.  The key is spliced in verbatim. -/
def whereQ (q : QB) (key : String) (v : Value) : QB :=
  q ++ [.leaf (key ++ " = ?") v false]

/-- `func Or(query, key, value)` — appends `key ++ " = ?"` as an
OR-connected condition. -/
def orQ (q : QB) (key : String) (v : Value) : QB :=
  q ++ [.leaf (key ++ " = ?") v true]

/-- The inner loop `for k, v := range condition` of the `"or"` branch:
each iteration reassigns `tx = Or(query, k, v)` — building on the outer
`query`, not on the accumulated `tx`, so only the final key survives. -/
def applyFilterOrInner (q : QB) (tx : QB) (m : GoMap) : QB :=
  match m with
  | [] => tx
  | (k, v) :: rest => applyFilterOrInner q (orQ q k v) rest

/-- The loop over `ors[1:]` of the `"or"` branch: each later condition is
asserted to be a map (`none` models the panic of a failed assertion) and
fed to the inner loop. -/
def applyFilterOrLoop (q : QB) (tx : QB) (ors : List Value) : Option QB :=
  match ors with
  | [] => some tx
  | c :: cs =>
    match c with
    | .vObj m => applyFilterOrLoop q (applyFilterOrInner q tx m) cs
    | _ => none

mutual

/-- `func applyFilter(query, filter)` translated statement by statement.
Go map iteration order is unspecified; the embedding iterates the
association list in order (the claims only use single-key maps, where the
order is irrelevant).  `none` models a Go panic from a failed type
assertion (`value.([]interface\x7b\x7d)`,
`condition.(map[string]interface\x7b\x7d)`) or from indexing `ors[0]`
into an empty list.  The `"and"` branch continues the loop over the
remaining keys; the `"or"` and default branches return immediately. -/
def applyFilter (q : QB) (filter : GoMap) : Option QB :=
  match filter with
  | [] => some q
  | (key, value) :: rest =>
    match strToLower key with
    | "and" =>
      match applyFilterAnd q value with
      | none => none
      | some q' => applyFilter q' rest
    | "or" => applyFilterOrVal q value
    | _ => some (whereQ q key value)

/-- The `"and"` branch assertion `value.([]interface\x7b\x7d)`. -/
def applyFilterAnd (q : QB) (value : Value) : Option QB :=
  match value with
  | .vArr conds => applyFilterConds q conds
  | _ => none

/-- The `"or"` branch assertion `value.([]interface\x7b\x7d)`. -/
def applyFilterOrVal (q : QB) (value : Value) : Option QB :=
  match value with
  | .vArr ors => applyFilterOr q ors
  | _ => none

/-- The `"or"` branch body: seed `tx` by applying the first condition to
the outer query, run the loop over the rest, then embed the result as one
grouped condition (`query.Where(tx)`) and return. -/
def applyFilterOr (q : QB) (ors : List Value) : Option QB :=
  match ors with
  | [] => none
  | o0 :: orest =>
    match applyFilterFirst q o0 with
    | none => none
    | some tx0 =>
      match applyFilterOrLoop q tx0 orest with
      | none => none
      | some tx => some (q ++ [.group tx false])

/-- Seeding the `"or"` loop: `applyFilter(tx, ors[0].(map[string]interface\x7b\x7d))`. -/
def applyFilterFirst (q : QB) (o0 : Value) : Option QB :=
  match o0 with
  | .vObj m0 => applyFilter q m0
  | _ => none

/-- The `"and"` branch body: each nested condition is asserted to be a map
and folded through `applyFilter`. -/
def applyFilterConds (q : QB) (conds : List Value) : Option QB :=
  match conds with
  | [] => some q
  | c :: cs =>
    match applyFilterCond q c with
    | none => none
    | some q' => applyFilterConds q' cs

/-- One nested `"and"` condition: the assertion
`condition.(map[string]interface\x7b\x7d)` then the recursive call. -/
def applyFilterCond (q : QB) (c : Value) : Option QB :=
  match c with
  | .vObj m => applyFilter q m
  | _ => none

end

/-- A database row: column name to stored value. -/
abbrev Row := List (String × Value)

/-- SQL `=` on a column's stored value and a bound argument: comparison
with NULL is never true; a column absent from the row reads as NULL. -/
def sqlEq (row : Row) (col : String) (arg : Value) : Bool :=
  match lookupStr row col with
  | none => false
  | some v =>
    match v, arg with
    | .vNull, _ => false
    | _, .vNull => false
    | a, b => Value.beq a b

/-- A valid SQL column identifier (letters, digits, underscore). -/
def isIdent (s : String) : Bool :=
  s ≠ "" && s.data.all (fun c => c.isAlphanum || c = '_')

/-- Model of the storage collaborator executing one raw condition string
with one bound argument: only a fragment of the shape
`<identifier> = ?` parses; anything else (for example `priority> = ?`) is
an SQL syntax error (`none`). -/
def evalLeafSQL (sql : String) (arg : Value) (row : Row) : Option Bool :=
  if strEndsWith sql " = ?" && isIdent (sql.dropRight 4) then
    some (sqlEq row (sql.dropRight 4) arg)
  else
    none

mutual

/-- Evaluate one accumulated condition against a row. -/
def evalCond (c : QueryCond) (row : Row) : Option Bool :=
  match c with
  | .leaf sql arg _ => evalLeafSQL sql arg row
  | .group cs _ => evalConds cs row

/-- Evaluate a condition list the way SQL joins it: the first condition
stands alone, each later one is combined left to right with AND or OR
according to its tag. -/
def evalConds (cs : List QueryCond) (row : Row) : Option Bool :=
  match cs with
  | [] => some true
  | c :: rest =>
    match evalCond c row with
    | none => none
    | some b => evalCondsFrom b rest row

/-- Left-to-right fold of the remaining conditions onto accumulator `b`. -/
def evalCondsFrom (b : Bool) (cs : List QueryCond) (row : Row) : Option Bool :=
  match cs with
  | [] => some b
  | c :: rest =>
    match evalCond c row with
    | none => none
    | some b' =>
      match c with
      | .leaf _ _ isOr => evalCondsFrom (if isOr then b || b' else b && b') rest row
      | .group _ isOr => evalCondsFrom (if isOr then b || b' else b && b') rest row

end

/-- Outcome of compiling a filter tree and evaluating it on one row. -/
inductive FilterResult where
  | panicked
  | sqlError
  | matches (b : Bool)
deriving Repr, DecidableEq

/-- Compile a condition tree with `applyFilter` on an empty builder and
evaluate the compiled predicate on one row. -/
def filterMatches (filter : GoMap) (row : Row) : FilterResult :=
  match applyFilter [] filter with
  | none => .panicked
  | some q =>
    match evalConds q row with
    | none => .sqlError
    | some b => .matches b

/-- The or-example condition tree of the spec:
`\x7b"or":[\x7b"a":1\x7d,\x7b"b":2\x7d]\x7d`. -/
def orExampleFilter : GoMap :=
  [("or", .vArr [.vObj [("a", .vNum 1)], .vObj [("b", .vNum 2)]])]

/-- The and-example condition tree of the spec:
`\x7b"and":[\x7b"status":"open"\x7d,\x7b"priority>":1\x7d]\x7d`. -/
def andExampleFilter : GoMap :=
  [("and", .vArr [.vObj [("status", .vStr "open")], .vObj [("priority>", .vNum 1)]])]

/-- **C5** (code_bug): the compiled predicates do not implement the claimed
semantics at the spec's own examples.  For the or-tree, a row with `a = 1`
and `b = 0` should match (`a=1 OR b=2`), but the compiled predicate rejects
it: the loop over `ors[1:]` rebuilds `tx` from the outer `query` instead of
the accumulated `tx`, so the first branch `a = 1` is discarded and only
`b = 2` survives (a row with `b = 2` still matches).  For the and-tree, a
row with `status = open` and `priority = 5` should match
(`status=open AND priority>1`), but `Where` splices the key into
`"priority> = ?"`, a malformed SQL fragment, so the query errors instead
of comparing. -/
theorem filter_compiler_diverges_on_spec_examples :
    filterMatches orExampleFilter [("a", .vNum 1), ("b", .vNum 0)] = .matches false
    ∧ filterMatches orExampleFilter [("a", .vNum 0), ("b", .vNum 2)] = .matches true
    ∧ filterMatches andExampleFilter [("status", .vStr "open"), ("priority", .vNum 5)]
        = .sqlError := by
  refine ⟨rfl, rfl, rfl⟩

/-! ## Data model (src/model/model.go) -/

namespace model

/-- `model.Index`: a named index over a list of columns. -/
structure Index where
  name : String
  indexes : List String
deriving Repr, DecidableEq

/-- `model.Field`: one create-time field specification.  `ftype` embeds the
Go field `Type` (a Lean reserved word). -/
structure Field where
  ftype : String
  name : String
  nullable : Bool
  reference : String
  unique : Bool
deriving Repr, DecidableEq

/-- `model.Field.ConvertTypeToSQLiteType`: case-insensitive logical-type
mapping; an unrecognized type yields the empty string. -/
def Field.ConvertTypeToSQLiteType (f : Field) : String :=
  match strToLower f.ftype with
  | "text" | "string" => "TEXT"
  | "number" | "real" => "REAL"
  | "boolean" => "BOOLEAN"
  | "datetime" | "timestamp" => "DATETIME"
  | "file" | "blob" => "BLOB"
  | "relation" => "RELATION"
  | _ => ""

/-- `model.CreateTable`: a create-table request.  `ttype` embeds the Go
field `Type` (json `table_type`). -/
structure CreateTable where
  name : String
  fields : List Field
  indexes : List Index
  ttype : String
deriving Repr

/-- Modelled from the spec/stdlib: the serialized index list persisted in
the catalog (`json.Marshal` in `Create`, `json.Unmarshal` in `Info` —
`encoding/json` is standard-library behaviour, outside this repository).
Marshalling is embedded as a tagged value so that unmarshalling a
marshalled list is exact; `"[]"` and `"null"` denote the empty list as in
Go, and any other raw string (including the Go zero value `""`) fails to
parse. -/
inductive Serialized where
  | raw (s : String)
  | idxList (l : List Index)
deriving Repr, DecidableEq

/-- `json.Marshal(params.Indexes)`. -/
def marshalIndexes (l : List Index) : Serialized := .idxList l

/-- `json.Unmarshal([]byte(table.Indexes), &index)`. -/
def unmarshalIndexes : Serialized → Except String (List Index)
  | .idxList l => .ok l
  | .raw "[]" => .ok []
  | .raw "null" => .ok []
  | .raw _ => .error "json: cannot unmarshal"

/-- `model.Tables`: one catalog row of the `_table` system table.  The
`Indexes` string column is embedded as a `Serialized` value; `systemIndex`
mirrors the gorm-ignored `SystemIndex` field populated by `Info` from it. -/
structure Tables where
  name : String
  auth : Bool
  system : Bool
  indexes : Serialized
  systemIndex : List Index
  viewRule : String
  readRule : String
  insertRule : String
  updateRule : String
  deleteRule : String
deriving Repr, DecidableEq

end model

/-! ## DDL generation (`TableServiceImpl.Create`, src/unnamed/part_001:93-152) -/

namespace service

/-- The field loop of `Create`, accumulating column clauses, table-level
UNIQUE constraints and FOREIGN KEY clauses in input order; a field whose
type converts to `""` is skipped (`continue`). -/
def createTableLoop (fls : List model.Field) : List String × List String × List String :=
  match fls with
  | [] => ([], [], [])
  | f :: rest =>
    let (fs, us, fks) := createTableLoop rest
    let dtype := f.ConvertTypeToSQLiteType
    if dtype = "" then (fs, us, fks)
    else
      let field0 := if dtype = "RELATION" then f.name ++ " TEXT" else f.name ++ " " ++ dtype
      let fk := if dtype = "RELATION"
        then ["FOREIGN KEY(" ++ f.name ++ ") REFERENCES " ++ f.reference ++ "(id) ON UPDATE CASCADE"]
        else []
      let field1 := if f.nullable then field0 else field0 ++ " NOT NULL"
      let uq := if f.unique then ["UNIQUE (" ++ f.name ++ ")"] else []
      (field1 :: fs, uq ++ us, fk ++ fks)

/-- The complete comma-joined parts list of the generated CREATE TABLE
statement, in the order `Create` assembles it: synthetic id, reserved auth
columns for a `users` table, user field clauses, the two timestamp
columns, UNIQUE constraints, FOREIGN KEY clauses. -/
def createTableFields (params : model.CreateTable) : List String :=
  let fields0 := ["id INTEGER PRIMARY KEY"]
  let fields1 := if params.ttype = "users"
    then fields0 ++ ["email TEXT NOT NULL", "password TEXT NOT NULL", "salt TEXT NOT NULL"]
    else fields0
  let parts := createTableLoop params.fields
  fields1 ++ parts.1
    ++ ["created_at TIMESTAMP DEFAULT CURRENT_TIMESTAMP",
        "updated_at TIMESTAMP DEFAULT CURRENT_TIMESTAMP"]
    ++ parts.2.1 ++ parts.2.2

/-- Spec-worded column clause of one field: `none` when the type is
unrecognized (the field is dropped). -/
def columnClause (f : model.Field) : Option String :=
  let dtype := f.ConvertTypeToSQLiteType
  if dtype = "" then none
  else
    let base := if dtype = "RELATION" then f.name ++ " TEXT" else f.name ++ " " ++ dtype
    some (if f.nullable then base else base ++ " NOT NULL")

/-- Spec-worded table-level UNIQUE constraint of one field. -/
def uniqueClause (f : model.Field) : Option String :=
  if f.ConvertTypeToSQLiteType = "" then none
  else if f.unique then some ("UNIQUE (" ++ f.name ++ ")") else none

/-- Spec-worded FOREIGN KEY clause of one relation field. -/
def foreignKeyClause (f : model.Field) : Option String :=
  if f.ConvertTypeToSQLiteType = "RELATION"
  then some ("FOREIGN KEY(" ++ f.name ++ ") REFERENCES " ++ f.reference ++ "(id) ON UPDATE CASCADE")
  else none

/-- The statement parts in the fixed order the spec words describe:
synthetic id, reserved auth columns if auth, supported user fields in
input order, timestamps, UNIQUE constraints, FOREIGN KEY clauses. -/
def specOrderedParts (params : model.CreateTable) : List String :=
  ["id INTEGER PRIMARY KEY"]
  ++ (if params.ttype = "users"
      then ["email TEXT NOT NULL", "password TEXT NOT NULL", "salt TEXT NOT NULL"]
      else [])
  ++ params.fields.filterMap columnClause
  ++ ["created_at TIMESTAMP DEFAULT CURRENT_TIMESTAMP",
      "updated_at TIMESTAMP DEFAULT CURRENT_TIMESTAMP"]
  ++ params.fields.filterMap uniqueClause
  ++ params.fields.filterMap foreignKeyClause

theorem createTableLoop_eq_filterMap (fls : List model.Field) :
    createTableLoop fls =
      (fls.filterMap columnClause, fls.filterMap uniqueClause, fls.filterMap foreignKeyClause) := by
  induction fls with
  | nil => rfl
  | cons f rest ih =>
    by_cases h : f.ConvertTypeToSQLiteType = ""
    · simp [createTableLoop, ih, columnClause, uniqueClause, foreignKeyClause, h]
    · by_cases hr : f.ConvertTypeToSQLiteType = "RELATION" <;>
        by_cases hn : f.nullable <;>
        by_cases hu : f.unique <;>
        simp [createTableLoop, ih, columnClause, uniqueClause, foreignKeyClause, h, hr, hn, hu]

end service

/-- **C9** (confirmed): for every create-table request, the generated
CREATE TABLE statement lists its parts in the fixed deterministic order —
synthetic id first, reserved auth columns for a users table, supported
user fields in input order, the two timestamp columns, all table-level
UNIQUE constraints, then all FOREIGN KEY clauses — and a field with an
unrecognized type is omitted without disturbing this order. -/
theorem service.createTableFields_fixed_order (params : model.CreateTable) :
    service.createTableFields params = service.specOrderedParts params := by
  unfold service.createTableFields service.specOrderedParts
  rw [service.createTableLoop_eq_filterMap]
  by_cases h : params.ttype = "users" <;> simp [h]

namespace service

/-- One column of a live table as the PRAGMA-based introspection of
`Columns` reports it (the `cid` ordinal and `dflt_value`, which no code
path reads, are not modelled). -/
structure Col where
  name : String
  ctype : String
  notnull : Nat
  pk : Nat
  reference : Option String
deriving Repr, DecidableEq

/-- The live column created for one supported user field by the generated
column clause: a relation field is stored as TEXT and carries its foreign
key target in `reference`; an unsupported field creates no column. -/
def colOfField (f : model.Field) : Option Col :=
  let dtype := f.ConvertTypeToSQLiteType
  if dtype = "" then none
  else some
    { name := f.name
      ctype := if dtype = "RELATION" then "TEXT" else dtype
      notnull := if f.nullable then 0 else 1
      pk := 0
      reference := if dtype = "RELATION" then some f.reference else none }

/-- The columns of the live table that results from the storage engine
executing the CREATE TABLE statement assembled by `createTableFields`:
one `Col` per column clause, in clause order. -/
def createdCols (params : model.CreateTable) : List Col :=
  [⟨"id", "INTEGER", 0, 1, none⟩]
  ++ (if params.ttype = "users"
      then [⟨"email", "TEXT", 1, 0, none⟩, ⟨"password", "TEXT", 1, 0, none⟩,
            ⟨"salt", "TEXT", 1, 0, none⟩]
      else [])
  ++ params.fields.filterMap colOfField
  ++ [⟨"created_at", "TIMESTAMP", 0, 0, none⟩, ⟨"updated_at", "TIMESTAMP", 0, 0, none⟩]

end service

/-- **C8 counterexample** (closed): a `users`-type create request carrying
one supported field spec produces a table whose columns are not exactly
the reserved set — the supplied field `nickname` is appended as well,
because `Create` runs its field loop for auth tables too. -/
theorem users_table_keeps_caller_fields :
    (service.createdCols ⟨"u", [⟨"text", "nickname", true, "", false⟩], [], "users"⟩).map
        service.Col.name
      = ["id", "email", "password", "salt", "nickname", "created_at", "updated_at"]
    ∧ "nickname" ∈ (service.createdCols
        ⟨"u", [⟨"text", "nickname", true, "", false⟩], [], "users"⟩).map service.Col.name := by
  refine ⟨rfl, ?_⟩
  decide

/-- **C8 amended** (proved): every `users`-type create yields the reserved
auth columns `email,password,salt` together with `id,created_at,updated_at`
— but in addition the supported supplied fields, in input order; the
column set is exactly the reserved six only when no supported field spec
is supplied. -/
theorem users_table_columns_reserved_plus_fields (params : model.CreateTable)
    (h : params.ttype = "users") :
    (service.createdCols params).map service.Col.name
      = ["id", "email", "password", "salt"]
        ++ (params.fields.filterMap service.colOfField).map service.Col.name
        ++ ["created_at", "updated_at"] := by
  simp [service.createdCols, h]

/-- Witness for C8: a `users` create request with no field specs yields
exactly the reserved columns. -/
theorem users_table_columns_reserved_plus_fields_witness :
    (service.createdCols ⟨"u", [], [], "users"⟩).map service.Col.name
      = ["id", "email", "password", "salt", "created_at", "updated_at"] := by
  have h := users_table_columns_reserved_plus_fields ⟨"u", [], [], "users"⟩ rfl
  simpa using h


/-! ## Table service state (`TableServiceImpl`, src/unnamed/part_001)

The storage collaborator and the in-process go-cache become one explicit
state record: the `_table` catalog rows, the live tables with their
columns, the live index and trigger names, and the cache.  `Create` and
`Drop` receive a transaction handle and use it for every statement, so a
failed call leaves the state unchanged; neither touches the cache. -/

namespace service

/-- One value held by the go-cache (`interface\x7b\x7d`): `Info` stores a
`model.Tables`, `Columns` stores an introspected column list. -/
inductive CacheVal where
  | tbl (t : model.Tables)
  | cols (cs : List Col)
deriving Repr, DecidableEq

/-- The table-service state: catalog rows, live tables with their columns,
live index names with their table, live trigger names, and the cache. -/
structure SvcState where
  catalog : List model.Tables
  live : List (String × List Col)
  liveIndexes : List (String × String)
  triggers : List String
  cache : List (String × CacheVal)
deriving Repr

/-- go-cache `Get`. -/
def cacheGet (c : List (String × CacheVal)) (k : String) : Option CacheVal :=
  match c with
  | [] => none
  | (k', v) :: rest => if k' = k then some v else cacheGet rest k

/-- go-cache `Set`: replaces an existing entry, else appends. -/
def cacheSet (c : List (String × CacheVal)) (k : String) (v : CacheVal) :
    List (String × CacheVal) :=
  match c with
  | [] => [(k, v)]
  | (k', v') :: rest => if k' = k then (k, v) :: rest else (k', v') :: cacheSet rest k v

/-- The default descriptor attribute set of `Info`. -/
def TABLE_INFO_DEFAULT : List String :=
  ["name", "auth", "indexes", "system", "view_rule", "read_rule",
   "insert_rule", "update_rule", "delete_rule"]

/-- The `Info` cache key:
`"table_" + strings.Join(infoNeeded, ";") + tableName`. -/
def infoCacheKey (infoNeeded : List String) (tableName : String) : String :=
  "table_" ++ String.intercalate ";" infoNeeded ++ tableName

/-- `SELECT <infoNeeded> ...` scanning into `model.Tables`: attributes not
selected keep their Go zero value. -/
def restrictTables (t : model.Tables) (infoNeeded : List String) : model.Tables :=
  { name := if "name" ∈ infoNeeded then t.name else ""
    auth := if "auth" ∈ infoNeeded then t.auth else false
    system := if "system" ∈ infoNeeded then t.system else false
    indexes := if "indexes" ∈ infoNeeded then t.indexes else .raw ""
    systemIndex := []
    viewRule := if "view_rule" ∈ infoNeeded then t.viewRule else ""
    readRule := if "read_rule" ∈ infoNeeded then t.readRule else ""
    insertRule := if "insert_rule" ∈ infoNeeded then t.insertRule else ""
    updateRule := if "update_rule" ∈ infoNeeded then t.updateRule else ""
    deleteRule := if "delete_rule" ∈ infoNeeded then t.deleteRule else "" }

/-- `TableServiceImpl.Info` (src/unnamed/part_001:58-91): default the
attribute set, consult the cache, else query the catalog, unmarshal the
index list when requested, cache the result and return it.  The
`.error` on a `.cols` cache hit models the panic of the type assertion
`storedCache.(model.Tables)`, unreachable through the generated keys. -/
def svcInfo (st : SvcState) (tableName : String) (infoNeeded : List String) :
    Except String (model.Tables × SvcState) :=
  let needed := if infoNeeded = [] then TABLE_INFO_DEFAULT else infoNeeded
  let key := infoCacheKey needed tableName
  match cacheGet st.cache key with
  | some (.tbl t) => .ok (t, st)
  | some (.cols _) => .error "panic: interface conversion"
  | none =>
    match st.catalog.find? (fun t => t.name == tableName) with
    | none => .error "record not found"
    | some t0 =>
      let t1 := restrictTables t0 needed
      if "indexes" ∈ needed then
        match model.unmarshalIndexes t1.indexes with
        | .error e => .error e
        | .ok idx =>
          let t2 := { t1 with systemIndex := idx }
          .ok (t2, { st with cache := cacheSet st.cache key (.tbl t2) })
      else
        .ok (t1, { st with cache := cacheSet st.cache key (.tbl t1) })

/-- The `CREATE INDEX` loop of `Create`: each requested index is created
on the live schema; a duplicate index name is a storage error. -/
def createIndexesLoop (existing : List (String × String)) (tableName : String)
    (idxs : List model.Index) : Except String (List (String × String)) :=
  match idxs with
  | [] => .ok existing
  | i :: rest =>
    if (existing.find? (fun p => p.1 == i.name)).isSome then .error "index already exists"
    else createIndexesLoop (existing ++ [(i.name, tableName)]) tableName rest

/-- `TableServiceImpl.Create` (src/unnamed/part_001:93-213): execute the
generated CREATE TABLE (error if the live table exists), create the
requested indexes, create the `updated_timestamp_` trigger unless already
present, then insert the catalog row (error on a duplicate name — `name`
is the primary key).  All statements run on the supplied transaction
handle, so an error leaves the state unchanged.  The inserted row takes
the gorm column default `ADMIN_ONLY` for the five rule strings.  The
cache is not touched. -/
def svcCreate (st : SvcState) (params : model.CreateTable) : Except String SvcState :=
  if (st.live.find? (fun p => p.1 == params.name)).isSome then
    .error "table already exists"
  else
    match createIndexesLoop st.liveIndexes params.name params.indexes with
    | .error e => .error e
    | .ok idx1 =>
      let trigName := "updated_timestamp_" ++ params.name
      let triggers1 := if st.triggers.contains trigName then st.triggers
        else st.triggers ++ [trigName]
      if (st.catalog.find? (fun t => t.name == params.name)).isSome then
        .error "UNIQUE constraint failed: _table.name"
      else
        .ok { catalog := st.catalog ++
                [{ name := params.name
                   auth := params.ttype = "users"
                   system := false
                   indexes := model.marshalIndexes params.indexes
                   systemIndex := []
                   viewRule := "ADMIN_ONLY", readRule := "ADMIN_ONLY"
                   insertRule := "ADMIN_ONLY", updateRule := "ADMIN_ONLY"
                   deleteRule := "ADMIN_ONLY" }]
              live := st.live ++ [(params.name, createdCols params)]
              liveIndexes := idx1
              triggers := triggers1
              cache := st.cache }

/-- `TableServiceImpl.Drop` (src/unnamed/part_001:224-231): delete the
catalog rows matching the name, then `DROP TABLE` (an error if the live
table is absent; dropping a live table also drops its indexes and its
`updated_timestamp_` trigger, as SQLite does).  Both statements run on the
supplied transaction handle, so an error leaves the state unchanged.  The
cache is not touched. -/
def svcDrop (st : SvcState) (tableName : String) : Except String SvcState :=
  let catalog1 := st.catalog.filter (fun t => !(t.name == tableName))
  if (st.live.find? (fun p => p.1 == tableName)).isSome then
    .ok { catalog := catalog1
          live := st.live.filter (fun p => !(p.1 == tableName))
          liveIndexes := st.liveIndexes.filter (fun p => !(p.2 == tableName))
          triggers := st.triggers.filter (fun s => !(s == "updated_timestamp_" ++ tableName))
          cache := st.cache }
  else .error "no such table"

/-- `TableServiceImpl.Columns` (src/unnamed/part_001:233-304): consult the
cache under `"columns_" + tableName`; on a miss introspect the live
columns (a missing table yields no rows), remap foreign-key columns to
logical type RELATION, fetch the descriptor through `Info` (threading its
cache write), and then: for an auth table return the redacted list
without caching it — dropping `salt`, and also `password` unless
`fetchAuthColumn` — and for any other table cache and return the full
list. -/
def svcColumns (st : SvcState) (tableName : String) (fetchAuthColumn : Bool) :
    Except String (List Col × SvcState) :=
  let key := "columns_" ++ tableName
  match cacheGet st.cache key with
  | some (.cols cs) => .ok (cs, st)
  | some (.tbl _) => .error "panic: interface conversion"
  | none =>
    let rows0 := match st.live.find? (fun p => p.1 == tableName) with
      | none => []
      | some p => p.2
    let rows := rows0.map (fun c => if c.reference.isSome then { c with ctype := "RELATION" } else c)
    match svcInfo st tableName [] with
    | .error e => .error e
    | .ok (table, st1) =>
      if table.auth then
        if fetchAuthColumn then
          .ok (rows.filter (fun c => !(c.name == "salt")), st1)
        else
          .ok (rows.filter (fun c => !(c.name == "password") && !(c.name == "salt")), st1)
      else
        .ok (rows, { st1 with cache := cacheSet st1.cache key (.cols rows) })

end service

namespace service

/-- Shorthand for the default rule string. -/
def AR : String := "ADMIN_ONLY"

/-- A catalog row for an auth table named `t` with no indexes. -/
def authRow (t : String) : model.Tables :=
  ⟨t, true, false, .idxList [], [], AR, AR, AR, AR, AR⟩

/-- Fixture for C2: a state holding one live auth table `t` with an empty
cache. -/
def c2St0 : SvcState :=
  ⟨[authRow "t"], [("t", createdCols ⟨"t", [], [], "users"⟩)], [],
   ["updated_timestamp_t"], []⟩

/-- Fixture for C2: describe `t` (fields `auth`), drop `t`, describe again;
report both descriptors. -/
def c2Trace : Except String (model.Tables × model.Tables) := do
  let r1 ← svcInfo c2St0 "t" ["auth"]
  let st2 ← svcDrop r1.2 "t"
  let r2 ← svcInfo st2 "t" ["auth"]
  pure (r1.1, r2.1)

/-- The descriptor restricted to the `auth` attribute. -/
def c2StaleDescr : model.Tables :=
  ⟨"", true, false, .raw "", [], "", "", "", "", ""⟩

end service

/-- **C2 counterexample** (closed): `Drop` does not invalidate the
descriptor cache.  Describing table `t`, dropping it successfully, then
describing it again yields the stale cached descriptor with no error —
the claim requires the second describe to fail with `SchemaError`. -/
theorem describe_after_drop_returns_stale_descriptor :
    service.c2Trace = .ok (service.c2StaleDescr, service.c2StaleDescr) := rfl

/-- **C2 amended** (proved): no mutation invalidates descriptor cache
entries.  After a successful `Drop`, a `Describe` fails (record not
found) exactly when its `(fields-set, name)` cache key is absent; with a
surviving cache entry it returns the stale descriptor until the entry
expires (the counterexample above). -/
theorem describe_after_drop_fails_only_uncached (st st' : service.SvcState)
    (name : String) (infoNeeded : List String)
    (hmiss : service.cacheGet st.cache
        (service.infoCacheKey
          (if infoNeeded = [] then service.TABLE_INFO_DEFAULT else infoNeeded) name) = none)
    (hdrop : service.svcDrop st name = .ok st') :
    service.svcInfo st' name infoNeeded = .error "record not found" := by
  unfold service.svcDrop at hdrop
  by_cases hl : (st.live.find? (fun p => p.1 == name)).isSome
  · simp only [hl, if_true] at hdrop
    injection hdrop with h
    subst h
    unfold service.svcInfo
    simp only []
    rw [hmiss]
    have hfind : (st.catalog.filter (fun t => !(t.name == name))).find?
        (fun t => t.name == name) = none := by
      rw [List.find?_eq_none]
      intro x hx
      rcases List.mem_filter.mp hx with ⟨-, hpx⟩
      simpa using hpx
    rw [hfind]
  · simp only [hl, if_false] at hdrop
    cases hdrop

namespace service

/-- Fixture for the C2 witness: the state after dropping `t`. -/
def c2Dropped : SvcState := ⟨[], [], [], [], []⟩

end service

/-- Witness for C2: on the concrete fixture, dropping `t` succeeds and the
subsequent describe with a cold cache fails. -/
theorem describe_after_drop_fails_only_uncached_witness :
    service.svcInfo service.c2Dropped "t" ["auth"] = .error "record not found" :=
  describe_after_drop_fails_only_uncached service.c2St0 service.c2Dropped "t" ["auth"] rfl rfl

namespace service

/-- Fixture for C3: create a plain table `x` with a user field named
`password`, list its columns (populating the `columns_x` cache), drop
`x`, recreate `x` as an auth (users) table, list columns again with
`includeAuth=false`; report the final column list and whether the final
catalog marks `x` as auth. -/
def c3Trace : Except String (List Col × Bool) := do
  let st1 ← svcCreate ⟨[], [], [], [], []⟩ ⟨"x", [⟨"text", "password", true, "", false⟩], [], "plain"⟩
  let r1 ← svcColumns st1 "x" false
  let st3 ← svcDrop r1.2 "x"
  let st4 ← svcCreate st3 ⟨"x", [], [], "users"⟩
  let r2 ← svcColumns st4 "x" false
  pure (r2.1, ((st4.catalog.find? (fun t => t.name == "x")).map model.Tables.auth).getD false)

/-- The stale column list the trace returns: the columns of the dropped
plain table, served from the never-invalidated `columns_x` cache entry. -/
def c3StaleCols : List Col :=
  [⟨"id", "INTEGER", 0, 1, none⟩, ⟨"password", "TEXT", 0, 0, none⟩,
   ⟨"created_at", "TIMESTAMP", 0, 0, none⟩, ⟨"updated_at", "TIMESTAMP", 0, 0, none⟩]

end service

/-- **C3 counterexample** (closed): after the fixture trace, table `x` is
an auth table, yet `ListColumns(x, includeAuth=false)` returns a column
list containing `password`: the `columns_x` cache entry written while `x`
was a plain table survives `Drop` and the auth re-create, and a cache hit
bypasses redaction entirely. -/
theorem columns_cache_leaks_password_after_recreate :
    service.c3Trace = .ok (service.c3StaleCols, true)
    ∧ "password" ∈ service.c3StaleCols.map service.Col.name := by
  exact ⟨rfl, by decide⟩

/-- **C3 amended** (proved): when no `columns_<name>` cache entry
predates the call, the redaction is correct: for a table whose descriptor
reports auth, `ListColumns` with `includeAuth=false` returns neither
`password` nor `salt`, and with `includeAuth=true` never returns `salt`.
(The redacted result is itself not cached, so redacted and unredacted
results never share a cache entry; but the cache key ignores the
`includeAuth` flag and survives Drop/re-Create, which is what the
counterexample exploits.) -/
theorem columns_redacted_on_cold_cache (st : service.SvcState) (name : String)
    (t : model.Tables) (st1 : service.SvcState) (fetchAuth : Bool)
    (cs : List service.Col) (st2 : service.SvcState)
    (hmiss : service.cacheGet st.cache ("columns_" ++ name) = none)
    (hinfo : service.svcInfo st name [] = .ok (t, st1))
    (hauth : t.auth = true)
    (hcols : service.svcColumns st name fetchAuth = .ok (cs, st2)) :
    "salt" ∉ cs.map service.Col.name
    ∧ (fetchAuth = false → "password" ∉ cs.map service.Col.name) := by
  unfold service.svcColumns at hcols
  simp only [hmiss, hinfo, hauth, if_true] at hcols
  cases fetchAuth with
  | true =>
    simp only [if_true] at hcols
    injection hcols with h
    injection h with h1 h2
    subst h1
    constructor
    · intro hmem
      rcases List.mem_map.mp hmem with ⟨c, hc, hname⟩
      rcases List.mem_filter.mp hc with ⟨-, hp⟩
      simp [hname] at hp
    · intro hfalse; cases hfalse
  | false =>
    simp only [Bool.false_eq_true, if_false] at hcols
    injection hcols with h
    injection h with h1 h2
    subst h1
    refine ⟨?_, fun _ => ?_⟩ <;>
    · intro hmem
      rcases List.mem_map.mp hmem with ⟨c, hc, hname⟩
      rcases List.mem_filter.mp hc with ⟨-, hp⟩
      simp [hname] at hp

namespace service

/-- Fixture for the C3 witness: one live auth table `x`, cold cache. -/
def c3WitSt : SvcState :=
  ⟨[authRow "x"], [("x", createdCols ⟨"x", [], [], "users"⟩)], [],
   ["updated_timestamp_x"], []⟩

/-- The state after the witness `Info` call cached the descriptor of `x`. -/
def c3WitSt1 : SvcState :=
  { c3WitSt with cache :=
      [(infoCacheKey TABLE_INFO_DEFAULT "x", .tbl (authRow "x"))] }

/-- The redacted column list of the witness call with `includeAuth=false`. -/
def c3WitColsNoAuth : List Col :=
  [⟨"id", "INTEGER", 0, 1, none⟩, ⟨"email", "TEXT", 1, 0, none⟩,
   ⟨"created_at", "TIMESTAMP", 0, 0, none⟩, ⟨"updated_at", "TIMESTAMP", 0, 0, none⟩]

end service

/-- Witness for C3: on the concrete auth fixture with a cold cache, the
`includeAuth=false` column list contains neither `salt` nor `password`. -/
theorem columns_redacted_on_cold_cache_witness :
    "salt" ∉ service.c3WitColsNoAuth.map service.Col.name
    ∧ "password" ∉ service.c3WitColsNoAuth.map service.Col.name := by
  have h := columns_redacted_on_cold_cache service.c3WitSt "x" (service.authRow "x")
    service.c3WitSt1 false service.c3WitColsNoAuth service.c3WitSt1 rfl rfl rfl rfl
  exact ⟨h.1, h.2 rfl⟩

/-! ## Create/Delete table handlers (`DatabaseAPIImpl`, src/src/backend/api/database.go)

`CreateTable` (lines 336-392) and `DeleteTable` (lines 659-674) wrap
their work in `d.db.Transaction(func(tx *gorm.DB) error)` — but every
statement inside the closure is issued on `d.db`, the base connection;
the closure's `tx` handle is never used.  Statements on the base
connection auto-commit immediately, so when a later statement fails, the
gorm rollback closes an empty transaction and undoes nothing: each
handler below threads its durable state through the statements and an
error return keeps every effect already applied.  `fails i` injects a
storage-level failure (`StorageError` passthrough, spec §7) at statement
`i`. -/

namespace api

/-- The joint durable state of the two sources of truth the handlers
mutate: the live schema (table names, index names with their table,
trigger names) and the `_table` catalog (name and auth flag). -/
structure DualState where
  live : List String
  catalog : List (String × Bool)
  liveIndexes : List (String × String)
  triggers : List String
deriving Repr, DecidableEq

/-- The `CREATE INDEX` loop of `CreateTable` (statements `i, i+1, ...` on
`d.db`): a duplicate index name or an injected failure aborts; returns
the next statement number. -/
def apiCreateIndexes (i : Nat) (idxs : List String) (table : String)
    (fails : Nat → Bool) (st : DualState) : (Except String Nat) × DualState :=
  match idxs with
  | [] => (.ok i, st)
  | ix :: rest =>
    if fails i then (.error "storage error", st)
    else if (st.liveIndexes.find? (fun p => p.1 == ix)).isSome then
      (.error "index already exists", st)
    else
      apiCreateIndexes (i + 1) rest table fails
        { st with liveIndexes := st.liveIndexes ++ [(ix, table)] }

/-- The catalog insert of `CreateTable` (statement `i` on `d.db`): `name`
is the catalog primary key. -/
def apiInsertCatalog (i : Nat) (name : String) (isAuth : Bool)
    (fails : Nat → Bool) (st : DualState) : (Except String Unit) × DualState :=
  if fails i then (.error "storage error", st)
  else if (st.catalog.find? (fun p => p.1 == name)).isSome then
    (.error "UNIQUE constraint failed: _table.name", st)
  else (.ok (), { st with catalog := st.catalog ++ [(name, isAuth)] })

/-- `DatabaseAPIImpl.CreateTable` (src/src/backend/api/database.go:336-392)
from the start of the `Transaction` call: execute the generated CREATE
TABLE, create each requested index, count the `updated_timestamp_` trigger
(a read), create it when absent, then insert the catalog row.  Every
statement runs on `d.db`, so an error reply still keeps all effects of the
statements that already succeeded. -/
def apiCreateTable (name : String) (isAuth : Bool) (idxNames : List String)
    (fails : Nat → Bool) (st : DualState) : (Except String Unit) × DualState :=
  if fails 0 then (.error "storage error", st)
  else if st.live.contains name then (.error "table already exists", st)
  else
    let st1 := { st with live := st.live ++ [name] }
    match apiCreateIndexes 1 idxNames name fails st1 with
    | (.error e, st2) => (.error e, st2)
    | (.ok i, st2) =>
      if fails i then (.error "storage error", st2)
      else
        let trigName := "updated_timestamp_" ++ name
        if st2.triggers.contains trigName then
          apiInsertCatalog (i + 1) name isAuth fails st2
        else if fails (i + 1) then (.error "storage error", st2)
        else
          apiInsertCatalog (i + 2) name isAuth fails
            { st2 with triggers := st2.triggers ++ [trigName] }

/-- `DatabaseAPIImpl.DeleteTable` (src/src/backend/api/database.go:659-674)
from the start of the `Transaction` call: `DROP TABLE` (statement 0, also
dropping the table's indexes and trigger as SQLite does), then delete the
catalog rows with `lower(name)` matching (statement 1).  Both statements
run on `d.db`, so a failed catalog delete leaves the table already
dropped. -/
def apiDeleteTable (name : String) (fails : Nat → Bool) (st : DualState) :
    (Except String Unit) × DualState :=
  if fails 0 then (.error "storage error", st)
  else if st.live.contains name then
    let st1 : DualState :=
      { live := st.live.filter (fun s => !(s == name))
        catalog := st.catalog
        liveIndexes := st.liveIndexes.filter (fun p => !(p.2 == name))
        triggers := st.triggers.filter (fun s => !(s == "updated_timestamp_" ++ name)) }
    if fails 1 then (.error "storage error", st1)
    else (.ok (),
      { st1 with catalog :=
          st1.catalog.filter (fun p => !(strToLower p.1 == strToLower name)) })
  else (.error "no such table", st)

end api

/-- **C1** (code_bug): neither handler is atomic.  Creating table `t` on an
empty state with the catalog insert (statement 3) failing leaves the live
table and its trigger created but no catalog row — the claim requires the
whole unit to roll back.  Deleting table `t` with the catalog delete
(statement 1) failing leaves the table dropped but its catalog row in
place.  Both partial effects are exactly what the `Transaction` wrapper
was meant to prevent: its `tx` handle is never used, every statement runs
on `d.db`. -/
theorem create_delete_table_not_atomic :
    (api.apiCreateTable "t" false [] (fun i => i == 3) ⟨[], [], [], []⟩
        = (.error "storage error", ⟨["t"], [], [], ["updated_timestamp_t"]⟩)
      ∧ "t" ∈ (⟨["t"], [], [], ["updated_timestamp_t"]⟩ : api.DualState).live
      ∧ (⟨["t"], [], [], ["updated_timestamp_t"]⟩ : api.DualState).catalog = [])
    ∧ (api.apiDeleteTable "t" (fun i => i == 1)
          ⟨["t"], [("t", false)], [], ["updated_timestamp_t"]⟩
        = (.error "storage error", ⟨[], [("t", false)], [], []⟩)
      ∧ "t" ∉ (⟨[], [("t", false)], [], []⟩ : api.DualState).live
      ∧ ("t", false) ∈ (⟨[], [("t", false)], [], []⟩ : api.DualState).catalog) := by
  exact ⟨⟨rfl, by decide, rfl⟩, ⟨rfl, by decide, by decide⟩⟩

/-! ## Function interpreter (`RunFunction`, src/src/backend/api/database.go:854-984)

The stored pipeline steps decode into `Function` values; the caller's
JSON body decodes into `Caller.Data`.  The `f.db.Transaction` closure
issues every statement on its transaction handle `db`, so a step error
rolls the database back to the pre-call state, while a Go panic (an
unchecked type assertion on malformed data) propagates out of the
handler. -/

namespace api

/-- `api.Filter`, the `\x7bcolumn, operator, value\x7d` triple of a delete
step.  Modelled from the spec (§4.4 delete: explicit triples whose absent
literal value falls back to the caller value for that column): the struct
declaration is not under src — only its uses `f.Column`, `f.Operator`,
`f.Value` (a string compared against `""`) in `RunFunction` are. -/
structure GFilter where
  column : String
  operator : String
  value : String
deriving Repr, DecidableEq

/-- `api.Function`: one stored pipeline step.  `values` is the value
template, `filter` the delete triples, `columns` the fetch projection. -/
structure Function where
  name : String
  action : String
  table : String
  multiple : Bool
  values : GoMap
  filter : List GFilter
  columns : List String
deriving Repr

/-- One live table of the storage collaborator: its column set, its
UNIQUE-constrained columns, and its rows. -/
structure DBTable where
  cols : List String
  uniqueCols : List String
  rows : List GoMap
deriving Repr

/-- The storage state seen by the interpreter, together with the counter
feeding the identifier generator (`idOfNat`). -/
structure DB where
  tables : List (String × DBTable)
  nextId : Nat
deriving Repr

/-- Look up a table by name. -/
def dbFind (db : DB) (t : String) : Option DBTable :=
  (db.tables.find? (fun p => p.1 == t)).map Prod.snd

/-- Replace a table's contents. -/
def dbSet (db : DB) (t : String) (tbl : DBTable) : DB :=
  { db with tables := db.tables.map (fun p => if p.1 == t then (t, tbl) else p) }

/-- SQL equality of two stored values: a NULL operand never compares
equal. -/
def valueSqlEq (a b : Value) : Bool :=
  match a, b with
  | .vNull, _ => false
  | _, .vNull => false
  | a, b => Value.beq a b

/-- Does inserting `row` violate one of the table's UNIQUE columns? -/
def uniqueViolation (tbl : DBTable) (row : GoMap) : Bool :=
  tbl.uniqueCols.any (fun c =>
    match lookupStr row c with
    | none => false
    | some v => tbl.rows.any (fun r =>
        match lookupStr r c with
        | none => false
        | some w => valueSqlEq w v))

/-- `INSERT` of one row: unknown table or column, or a UNIQUE violation,
is a storage error. -/
def dbCreateRow (db : DB) (t : String) (row : GoMap) : Except String DB :=
  match dbFind db t with
  | none => .error "no such table"
  | some tbl =>
    if row.any (fun kv => !(tbl.cols.contains kv.1)) then .error "no such column"
    else if uniqueViolation tbl row then .error "UNIQUE constraint failed"
    else .ok (dbSet db t { tbl with rows := tbl.rows ++ [row] })

/-- `INSERT` of a row list (`Create` on a slice): the first violation
aborts (the transaction discards any partial work anyway). -/
def dbCreateRows (db : DB) (t : String) (rows : List GoMap) : Except String DB :=
  match rows with
  | [] => .ok db
  | r :: rest =>
    match dbCreateRow db t r with
    | .error e => .error e
    | .ok db' => dbCreateRows db' t rest

/-- Apply an `Updates` map to one row. -/
def applyUpdates (r : GoMap) (vals : GoMap) : GoMap :=
  match vals with
  | [] => r
  | (k, v) :: rest => applyUpdates (setKey r k v) rest

/-- `UPDATE ... WHERE id = ?`: rows whose `id` SQL-equals `idVal` receive
the updates; an unknown table or column is a storage error; zero matched
rows is a success. -/
def dbUpdate (db : DB) (t : String) (idVal : Value) (vals : GoMap) : Except String DB :=
  match dbFind db t with
  | none => .error "no such table"
  | some tbl =>
    if vals.any (fun kv => !(tbl.cols.contains kv.1)) then .error "no such column"
    else .ok (dbSet db t
      { tbl with rows := tbl.rows.map (fun r =>
          if valueSqlEq (goGet r "id") idVal then applyUpdates r vals else r) })

/-- Does a raw delete condition string parse (`<identifier> = ?`)?  The
keys are built as `f.Column + f.Operator`, so only an operator string of
`" = ?"` yields an executable fragment; anything else (for example `"="`,
giving `"id="`) is malformed SQL at the storage layer. -/
def condParses (k : String) : Bool :=
  strEndsWith k " = ?" && isIdent (k.dropRight 4)

/-- `DELETE` with raw conditions: every condition must parse, and a row
matching all conditions is removed. -/
def dbDelete (db : DB) (t : String) (conds : List (String × Value)) : Except String DB :=
  match dbFind db t with
  | none => .error "no such table"
  | some tbl =>
    if conds.any (fun c => !(condParses c.1)) then .error "SQL syntax error"
    else .ok (dbSet db t
      { tbl with rows := tbl.rows.filter (fun r =>
          !(conds.all (fun c => sqlEq r (c.1.dropRight 4) c.2))) })

/-- `SELECT <columns> FROM t`: an empty projection selects every column;
an unknown column is a storage error; rows are projected in the requested
column order (a column a row lacks reads as NULL). -/
def dbSelect (db : DB) (t : String) (cols : List String) : Except String (List GoMap) :=
  match dbFind db t with
  | none => .error "no such table"
  | some tbl =>
    if cols = [] then .ok tbl.rows
    else if cols.any (fun c => !(tbl.cols.contains c)) then .error "no such column"
    else .ok (tbl.rows.map (fun r => cols.map (fun c => (c, goGet r c))))

/-- `BindSingularInput` (src/src/backend/api/database.go:1023-1040),
statement by statement.  `none` models the panic of the type assertion
`v.(string)` on a non-string template value.  A template value prefixed
`$` is a reference: `$user.id` binds the caller identity and any other
`$name` binds `savedData[name]` — the Go map read yields `nil` when the
name is absent, so an unresolved reference silently binds NULL.  An
unprefixed template value binds the caller input at the template key
(`nil` when absent). -/
def BindSingularInput (template : GoMap) (input : GoMap) (savedData : GoMap)
    (userID : String) : Option GoMap :=
  match template with
  | [] => some []
  | (k, v) :: rest =>
    match v with
    | .vStr s =>
      match BindSingularInput rest input savedData userID with
      | none => none
      | some r =>
        if strStartsWith s "$" then
          if s = "$user.id" then some ((k, .vStr userID) :: r)
          else some ((k, goGet savedData (strDrop1 s)) :: r)
        else some ((k, goGet input k) :: r)
    | _ => none

/-- `BindMultipleInput` (src/src/backend/api/database.go:1042-1067): bind
the template against each element of the caller list; `none` models the
panic of `input.(map[string]interface\x7b\x7d)` on a non-object element
or of the inner `v.(string)`. -/
def BindMultipleInput (template : GoMap) (inputs : List Value) (savedData : GoMap)
    (userID : String) : Option (List GoMap) :=
  match inputs with
  | [] => some []
  | i :: rest =>
    match i with
    | .vObj m =>
      match BindSingularInput template m savedData userID with
      | none => none
      | some r =>
        match BindMultipleInput template rest savedData userID with
        | none => none
        | some rs => some (r :: rs)
    | _ => none

/-- The id loop of a multiple insert:
`bindedInput[i]["id"], _ = utils.GenerateRandomString(16)` — one fresh
identifier per row, assigned after binding, overwriting any `id` the
template produced. -/
def assignIds (rows : List GoMap) (n : Nat) : List GoMap :=
  match rows with
  | [] => []
  | r :: rest => setKey r "id" (.vStr (idOfNat n)) :: assignIds rest (n + 1)

/-- Result of running the remaining steps inside the transaction. -/
inductive StepsResult where
  | ok (saved : GoMap) (db : DB)
  | fail (e : String)
  | panicked
deriving Repr

/-- One iteration of the step loop of `RunFunction` (the `switch f.Action`
body, src/src/backend/api/database.go:892-974).  `panicked` models the
unchecked type assertions on `caller.Data[f.Name]` and on template
values; an unknown action falls through the switch and the loop
continues. -/
def execStep (f : Function) (callerData : GoMap) (saved : GoMap) (userID : String)
    (db : DB) : StepsResult :=
  match f.action with
  | "insert" =>
    if f.multiple then
      match goGet callerData f.name with
      | .vArr inputs =>
        match BindMultipleInput f.values inputs saved userID with
        | none => .panicked
        | some binded =>
          let withIds := assignIds binded db.nextId
          match dbCreateRows { db with nextId := db.nextId + withIds.length } f.table withIds with
          | .error e => .fail e
          | .ok db' => .ok saved db'
      | _ => .panicked
    else
      match goGet callerData f.name with
      | .vObj input =>
        match BindSingularInput f.values input saved userID with
        | none => .panicked
        | some row =>
          let row1 := setKey row "id" (.vStr (idOfNat db.nextId))
          match dbCreateRow { db with nextId := db.nextId + 1 } f.table row1 with
          | .error e => .fail e
          | .ok db' => .ok (setKey saved f.name (goGet row1 "id")) db'
      | _ => .panicked
  | "update" =>
    if f.multiple then
      -- `caller.Data[f.Name].([]map[string]interface\x7b\x7d)`: a JSON
      -- body decodes lists as `[]interface\x7b\x7d`, never as
      -- `[]map[string]interface\x7b\x7d`, so this assertion panics on
      -- every JSON payload (and on a missing name).
      .panicked
    else
      match goGet callerData f.name with
      | .vObj data =>
        match BindSingularInput f.values data saved userID with
        | none => .panicked
        | some binded =>
          match dbUpdate db f.table (goGet data "id") binded with
          | .error e => .fail e
          | .ok db' => .ok saved db'
      | _ => .panicked
  | "delete" =>
    match goGet callerData f.name with
    | .vObj data =>
      let conds := f.filter.map (fun flt =>
        (flt.column ++ flt.operator,
         if flt.value = "" then goGet data flt.column else .vStr flt.value))
      match dbDelete db f.table conds with
      | .error e => .fail e
      | .ok db' => .ok saved db'
    | _ => .panicked
  | "fetch" =>
    match dbSelect db f.table f.columns with
    | .error e => .fail e
    | .ok rows => .ok (setKey saved f.name (.vArr (rows.map .vObj))) db
  | _ => .ok saved db

/-- The step loop of the `Transaction` closure. -/
def runSteps (fns : List Function) (callerData : GoMap) (saved : GoMap)
    (userID : String) (db : DB) : StepsResult :=
  match fns with
  | [] => .ok saved db
  | f :: rest =>
    match execStep f callerData saved userID db with
    | .ok saved' db' => runSteps rest callerData saved' userID db'
    | .fail e => .fail e
    | .panicked => .panicked

/-- Outcome of one invocation: success with the accumulated
`savedData` and the committed state, a structured error with the database
rolled back to the initial state, or a propagated panic. -/
inductive FnOutcome where
  | ok (saved : GoMap) (db : DB)
  | err (e : String) (db : DB)
  | panicked
deriving Repr

/-- `RunFunction` from the `f.db.Transaction` call
(src/src/backend/api/database.go:890-984): the closure issues every
statement on its transaction handle `db`, so any step error aborts and
rolls every effect of the invocation back; a panic propagates (gorm rolls
back, then re-panics). -/
def RunFunction (fns : List Function) (callerData : GoMap) (userID : String)
    (db : DB) : FnOutcome :=
  match runSteps fns callerData [] userID db with
  | .ok saved db' => .ok saved db'
  | .fail e => .err e db
  | .panicked => .panicked

end api

namespace api

/-- Fixture for C4: step one inserts into `ta`, binding `nm` from the
caller input, under output name `A`. -/
def c4StepA : Function := ⟨"A", "insert", "ta", false, [("nm", .vStr "nm")], [], []⟩

/-- Fixture for C4: step two inserts into `tb`, binding `fk` to the
recorded output `$A`, under output name `B`. -/
def c4StepB : Function := ⟨"B", "insert", "tb", false, [("fk", .vStr "$A")], [], []⟩

/-- Fixture for C4: the caller payload for both step names. -/
def c4Caller : GoMap := [("A", .vObj [("nm", .vStr "n1")]), ("B", .vObj [])]

/-- Fixture for C4: empty tables `ta` and `tb`, with `tb.fk` UNIQUE. -/
def c4DbOk : DB := ⟨[("ta", ⟨["id", "nm"], [], []⟩), ("tb", ⟨["id", "fk"], ["fk"], []⟩)], 0⟩

/-- Fixture for C4: as `c4DbOk` but `tb` already holds a row whose `fk`
equals the identifier the generator will hand to the `A` row, so the
second insert violates the UNIQUE constraint. -/
def c4DbConflict : DB :=
  ⟨[("ta", ⟨["id", "nm"], [], []⟩),
    ("tb", ⟨["id", "fk"], ["fk"], [[("id", .vStr "z"), ("fk", .vStr (idOfNat 0))]]⟩)], 0⟩

/-- The committed state of the successful C4 run. -/
def c4DbFinal : DB :=
  ⟨[("ta", ⟨["id", "nm"], [], [[("nm", .vStr "n1"), ("id", .vStr (idOfNat 0))]]⟩),
    ("tb", ⟨["id", "fk"], ["fk"], [[("fk", .vStr (idOfNat 0)), ("id", .vStr (idOfNat 1))]]⟩)], 2⟩

end api

/-- **C4** (confirmed): for the two-step pipeline `insert A; insert B`
with `B.fk` bound to `$A`, a successful run commits a `B` row whose `fk`
equals the identifier generated for the `A` row (both are `idOfNat 0`),
and when the second insert fails a UNIQUE constraint the invocation
returns a structured error with the database exactly in its initial state
— the `A` row is not visible afterwards. -/
theorem run_function_binds_fk_and_rolls_back :
    api.RunFunction [api.c4StepA, api.c4StepB] api.c4Caller "u1" api.c4DbOk
      = .ok [("A", .vStr (idOfNat 0)), ("B", .vStr (idOfNat 1))] api.c4DbFinal
    ∧ (api.dbFind api.c4DbFinal "tb").map (fun tbl => tbl.rows.map (fun r => lookupStr r "fk"))
      = some [some (.vStr (idOfNat 0))]
    ∧ (api.dbFind api.c4DbFinal "ta").map (fun tbl => tbl.rows.map (fun r => lookupStr r "id"))
      = some [some (.vStr (idOfNat 0))]
    ∧ api.RunFunction [api.c4StepA, api.c4StepB] api.c4Caller "u1" api.c4DbConflict
      = .err "UNIQUE constraint failed" api.c4DbConflict := by
  exact ⟨rfl, rfl, rfl, rfl⟩

/-- **C6 counterexample** (closed): a singular insert step whose template
binds `fk` to the token `$missing`, with no such output recorded, does
not fail — `BindSingularInput` binds the Go `nil` for it, the invocation
succeeds and persists a NULL `fk`.  The claim requires a hard
`BindingError` instead. -/
theorem unresolved_token_inserts_null :
    api.BindSingularInput [("fk", .vStr "$missing")] [] [] "u1" = some [("fk", .vNull)]
    ∧ api.RunFunction [⟨"U", "insert", "tu", false, [("fk", .vStr "$missing")], [], []⟩]
        [("U", .vObj [])] "u1" ⟨[("tu", ⟨["id", "fk"], [], []⟩)], 0⟩
      = .ok [("U", .vStr (idOfNat 0))]
          ⟨[("tu", ⟨["id", "fk"], [], [[("fk", .vNull), ("id", .vStr (idOfNat 0))]]⟩)], 1⟩ := by
  exact ⟨rfl, rfl⟩

/-- **C6 amended** (proved): a `$`-prefixed template token other than
`$user.id` that names an output absent from the execution environment
binds the Go nil value — stored as SQL NULL — and raises no error; no
`BindingError` exists in the code. -/
theorem unresolved_token_silent_null (k nm : String) (input savedData : GoMap)
    (userID : String) (hnm : nm ≠ "user.id") (hmiss : lookupStr savedData nm = none) :
    api.BindSingularInput [(k, .vStr ("$" ++ nm))] input savedData userID
      = some [(k, .vNull)] := by
  have hpref : strStartsWith ("$" ++ nm) "$" = true := by
    simp [strStartsWith, String.data_append, List.isPrefixOf]
  have hne : ("$" ++ nm) ≠ "$user.id" := by
    intro h
    apply hnm
    have hdata : ('$' :: nm.data) = ('$' :: "user.id".data) := by
      have := congrArg String.data h
      simpa [String.data_append] using this
    have hd : nm.data = "user.id".data := by injection hdata
    have := congrArg String.mk hd
    simpa using this
  have hdrop : strDrop1 ("$" ++ nm) = nm := by
    show String.mk ("$" ++ nm).data.tail = nm
    have hd : ("$" ++ nm).data = '$' :: nm.data := by simp [String.data_append]
    rw [hd]
    rfl
  simp only [api.BindSingularInput]
  rw [if_pos hpref, if_neg hne, hdrop]
  simp [goGet, hmiss]

/-- Witness for C6: the token `$missing` with an empty execution
environment binds NULL. -/
theorem unresolved_token_silent_null_witness :
    api.BindSingularInput [("fk", .vStr ("$" ++ "missing"))] [] [] "u1"
      = some [("fk", .vNull)] :=
  unresolved_token_silent_null "fk" "missing" [] [] "u1" (by decide) rfl

namespace api

/-- Is a dynamic value a JSON object? -/
def isObj : Value → Bool
  | .vObj _ => true
  | _ => false

/-- Is a dynamic value a JSON array of objects? -/
def isArrOfObj : Value → Bool
  | .vArr xs => xs.all isObj
  | _ => false

/-- Is a dynamic value a string? -/
def isStr : Value → Bool
  | .vStr _ => true
  | _ => false

/-- Are all template values strings (so `v.(string)` cannot panic)? -/
def templateStrings (m : GoMap) : Bool := m.all (fun kv => isStr kv.2)

/-- A step's caller payload has the shape its unchecked type assertions
require: an object for singular insert/update and for delete, an array of
objects for multiple insert, string template values throughout — and no
update-multiple step at all, since its assertion
`caller.Data[f.Name].([]map[string]interface\x7b\x7d)` fails on every
JSON-decoded value. -/
def stepShapeOk (f : Function) (callerData : GoMap) : Bool :=
  match f.action with
  | "insert" =>
    templateStrings f.values &&
      (if f.multiple then isArrOfObj (goGet callerData f.name)
       else isObj (goGet callerData f.name))
  | "update" =>
    !f.multiple && templateStrings f.values && isObj (goGet callerData f.name)
  | "delete" => isObj (goGet callerData f.name)
  | _ => true

/-- Every step of the pipeline is well-shaped for the caller payload. -/
def wellShaped (fns : List Function) (callerData : GoMap) : Bool :=
  fns.all (fun f => stepShapeOk f callerData)

theorem bindSingular_total (template : GoMap) (input savedData : GoMap) (userID : String)
    (h : templateStrings template = true) :
    ∃ r, BindSingularInput template input savedData userID = some r := by
  induction template with
  | nil => exact ⟨[], rfl⟩
  | cons kv rest ih =>
    obtain ⟨k, v⟩ := kv
    simp only [templateStrings, List.all_cons, Bool.and_eq_true] at h
    obtain ⟨hv, hrest⟩ := h
    obtain ⟨r, hr⟩ := ih hrest
    cases v with
    | vStr s =>
      refine ⟨?_, ?_⟩
      · exact if strStartsWith s "$" = true then
          (if s = "$user.id" then (k, .vStr userID) :: r
           else (k, goGet savedData (strDrop1 s)) :: r)
        else (k, goGet input k) :: r
      · simp only [BindSingularInput, hr]
        split_ifs <;> rfl
    | vNull => cases hv
    | vBool b => cases hv
    | vNum n => cases hv
    | vArr xs => cases hv
    | vObj fs => cases hv

theorem bindMultiple_total (template : GoMap) (inputs : List Value)
    (savedData : GoMap) (userID : String)
    (ht : templateStrings template = true) (hi : inputs.all isObj = true) :
    ∃ rs, BindMultipleInput template inputs savedData userID = some rs := by
  induction inputs with
  | nil => exact ⟨[], rfl⟩
  | cons i rest ih =>
    simp only [List.all_cons, Bool.and_eq_true] at hi
    obtain ⟨hi1, hirest⟩ := hi
    obtain ⟨rs, hrs⟩ := ih hirest
    cases i with
    | vObj m =>
      obtain ⟨r, hr⟩ := bindSingular_total template m savedData userID ht
      exact ⟨r :: rs, by simp only [BindMultipleInput, hr, hrs]⟩
    | vNull => cases hi1
    | vBool b => cases hi1
    | vNum n => cases hi1
    | vStr s => cases hi1
    | vArr xs => cases hi1

/-- A well-shaped step never panics: every branch of the action switch
either completes or returns a storage error. -/
theorem execStep_no_panic (f : Function) (callerData saved : GoMap) (userID : String)
    (db : DB) (h : stepShapeOk f callerData = true) :
    execStep f callerData saved userID db ≠ .panicked := by
  unfold execStep
  split
  · -- insert
    rename_i hact
    simp [stepShapeOk, hact] at h
    obtain ⟨ht, hshape⟩ := h
    by_cases hm : f.multiple = true
    · rw [if_pos hm] at hshape ⊢
      cases hval : goGet callerData f.name with
      | vArr inputs =>
        rw [hval] at hshape
        dsimp only
        obtain ⟨rs, hrs⟩ := bindMultiple_total f.values inputs saved userID ht
          (by simpa [isArrOfObj] using hshape)
        rw [hrs]
        cases hcr : dbCreateRows { db with nextId := db.nextId + (assignIds rs db.nextId).length }
            f.table (assignIds rs db.nextId) <;> simp [hcr]
      | vNull => rw [hval] at hshape; simp [isArrOfObj] at hshape
      | vBool b => rw [hval] at hshape; simp [isArrOfObj] at hshape
      | vNum n => rw [hval] at hshape; simp [isArrOfObj] at hshape
      | vStr s => rw [hval] at hshape; simp [isArrOfObj] at hshape
      | vObj fs => rw [hval] at hshape; simp [isArrOfObj] at hshape
    · rw [if_neg hm] at hshape ⊢
      cases hval : goGet callerData f.name with
      | vObj input =>
        dsimp only
        obtain ⟨r, hr⟩ := bindSingular_total f.values input saved userID ht
        rw [hr]
        cases hcr : dbCreateRow { db with nextId := db.nextId + 1 } f.table
            (setKey r "id" (.vStr (idOfNat db.nextId))) <;> simp [hcr]
      | vNull => rw [hval] at hshape; simp [isObj] at hshape
      | vBool b => rw [hval] at hshape; simp [isObj] at hshape
      | vNum n => rw [hval] at hshape; simp [isObj] at hshape
      | vStr s => rw [hval] at hshape; simp [isObj] at hshape
      | vArr xs => rw [hval] at hshape; simp [isObj] at hshape
  · -- update
    rename_i hact
    simp [stepShapeOk, hact] at h
    obtain ⟨⟨hm, ht⟩, hshape⟩ := h
    rw [hm]
    simp only [Bool.false_eq_true, if_false]
    cases hval : goGet callerData f.name with
    | vObj data =>
      dsimp only
      obtain ⟨r, hr⟩ := bindSingular_total f.values data saved userID ht
      rw [hr]
      cases hup : dbUpdate db f.table (goGet data "id") r <;> simp [hup]
    | vNull => rw [hval] at hshape; simp [isObj] at hshape
    | vBool b => rw [hval] at hshape; simp [isObj] at hshape
    | vNum n => rw [hval] at hshape; simp [isObj] at hshape
    | vStr s => rw [hval] at hshape; simp [isObj] at hshape
    | vArr xs => rw [hval] at hshape; simp [isObj] at hshape
  · -- delete
    rename_i hact
    simp [stepShapeOk, hact] at h
    cases hval : goGet callerData f.name with
    | vObj data =>
      dsimp only
      cases hdel : dbDelete db f.table (f.filter.map (fun flt =>
        (flt.column ++ flt.operator,
         if flt.value = "" then goGet data flt.column else .vStr flt.value))) <;> simp [hdel]
    | vNull => rw [hval] at h; simp [isObj] at h
    | vBool b => rw [hval] at h; simp [isObj] at h
    | vNum n => rw [hval] at h; simp [isObj] at h
    | vStr s => rw [hval] at h; simp [isObj] at h
    | vArr xs => rw [hval] at h; simp [isObj] at h
  · -- fetch
    cases hsel : dbSelect db f.table f.columns <;> simp [hsel]
  · -- unknown action: the switch falls through
    simp


end api

/-- **C7 counterexample** (closed): `RunFunction` panics on malformed
caller payloads — here a singular insert whose named input is absent
(`caller.Data[f.Name]` is nil, and `nil.(map[string]interface\x7b\x7d)`
panics), and a step whose template value is a number (`v.(string)`
panics).  The claim requires a structured error and no crash. -/
theorem run_function_panics_on_malformed_payload :
    api.RunFunction [⟨"A", "insert", "ta", false, [("nm", .vStr "nm")], [], []⟩] [] "u1"
        ⟨[("ta", ⟨["id", "nm"], [], []⟩)], 0⟩ = .panicked
    ∧ api.RunFunction [⟨"A", "insert", "ta", false, [("nm", .vNum 3)], [], []⟩]
        [("A", .vObj [])] "u1" ⟨[("ta", ⟨["id", "nm"], [], []⟩)], 0⟩ = .panicked := by
  exact ⟨rfl, rfl⟩

/-- **C7 amended** (proved): `RunFunction` panics (rather than returning
a structured error) whenever a step's named input is absent or has the
wrong shape for its cardinality, a template value is not a string, or an
update-multiple step runs at all; for payloads that are well-shaped for
every step, the invocation never panics — it returns success or a
structured error. -/
theorem run_function_no_panic_when_wellshaped (fns : List api.Function)
    (callerData : GoMap) (userID : String) (db : api.DB)
    (h : api.wellShaped fns callerData = true) :
    api.RunFunction fns callerData userID db ≠ .panicked := by
  unfold api.RunFunction
  suffices hs : ∀ saved db', api.runSteps fns callerData saved userID db' ≠ .panicked by
    cases hr : api.runSteps fns callerData [] userID db with
    | ok s d => simp
    | fail e => simp
    | panicked => exact absurd hr (hs [] db)
  induction fns with
  | nil => intro saved db'; simp [api.runSteps]
  | cons f rest ih =>
    intro saved db'
    simp only [api.wellShaped, List.all_cons, Bool.and_eq_true] at h
    obtain ⟨hf, hrest⟩ := h
    unfold api.runSteps
    cases he : api.execStep f callerData saved userID db' with
    | ok s d => exact ih hrest s d
    | fail e => simp
    | panicked => exact absurd he (api.execStep_no_panic f callerData saved userID db' hf)

/-- Witness for C7: the concrete two-step pipeline of C4 is well-shaped
for its payload, and its run is not a panic. -/
theorem run_function_no_panic_when_wellshaped_witness :
    api.RunFunction [api.c4StepA, api.c4StepB] api.c4Caller "u1" api.c4DbOk ≠ .panicked :=
  run_function_no_panic_when_wellshaped [api.c4StepA, api.c4StepB] api.c4Caller "u1"
    api.c4DbOk (by decide)

/-- Reading back the key just written. -/
theorem lookupStr_setKey (m : GoMap) (k : String) (v : Value) :
    lookupStr (setKey m k v) k = some v := by
  induction m with
  | nil => simp [setKey, lookupStr]
  | cons kv rest ih =>
    obtain ⟨k', v'⟩ := kv
    by_cases hk : k' = k
    · simp [setKey, lookupStr, hk]
    · simp [setKey, lookupStr, hk, ih]

/-- Every generated identifier has exactly 16 characters. -/
theorem idOfNat_length (n : Nat) : (idOfNat n).length = 16 := by
  show (String.mk ((idDigits n).map digitChar)).length = 16
  simp [String.length, idDigits]

/-- `digitChar` is injective on single digits (checked by evaluation). -/
theorem digitChar_inj_fin : ∀ (a b : Fin 10), digitChar a.val = digitChar b.val → a = b := by
  decide

theorem digitChar_inj (a b : Nat) (ha : a < 10) (hb : b < 10)
    (h : digitChar a = digitChar b) : a = b :=
  congrArg Fin.val (digitChar_inj_fin ⟨a, ha⟩ ⟨b, hb⟩ h)

/-- Digit lists render to equal character lists only when equal. -/
theorem map_digitChar_inj : ∀ (l1 l2 : List Nat), (∀ a ∈ l1, a < 10) → (∀ a ∈ l2, a < 10) →
    l1.map digitChar = l2.map digitChar → l1 = l2 := by
  intro l1
  induction l1 with
  | nil => intro l2 _ _ h; cases l2 with
    | nil => rfl
    | cons b bs => simp at h
  | cons a as ih =>
    intro l2 h1 h2 h
    cases l2 with
    | nil => simp at h
    | cons b bs =>
      simp only [List.map_cons, List.cons.injEq] at h
      have ha := h1 a (by simp)
      have hb := h2 b (by simp)
      have := digitChar_inj a b ha hb h.1
      rw [this, ih bs (fun x hx => h1 x (by simp [hx])) (fun x hx => h2 x (by simp [hx])) h.2]

/-- A number modulo `10 ^ k` is determined by its first `k` digits. -/
theorem mod_pow_of_digits : ∀ (k m n : Nat), (∀ i, i < k → m / 10 ^ i % 10 = n / 10 ^ i % 10) →
    m % 10 ^ k = n % 10 ^ k := by
  intro k
  induction k with
  | zero => intro m n _; simp [Nat.mod_one]
  | succ k ih =>
    intro m n h
    rw [pow_succ, Nat.mod_mul, Nat.mod_mul]
    rw [ih m n (fun i hi => h i (Nat.lt_trans hi (Nat.lt_succ_self k))),
      h k (Nat.lt_succ_self k)]

/-- Each entry of `idDigits` is a single digit. -/
theorem idDigits_mem_lt (m : Nat) : ∀ a ∈ idDigits m, a < 10 := by
  intro a ha
  simp only [idDigits, List.mem_reverse, List.mem_map, List.mem_range] at ha
  obtain ⟨i, -, rfl⟩ := ha
  exact Nat.mod_lt _ (by norm_num)

/-- Distinct counters below `10 ^ 16` have distinct digit lists. -/
theorem idDigits_inj (m n : Nat) (hm : m < 10 ^ 16) (hn : n < 10 ^ 16)
    (h : idDigits m = idDigits n) : m = n := by
  have h2 : (List.range 16).map (fun i => m / 10 ^ i % 10)
      = (List.range 16).map (fun i => n / 10 ^ i % 10) := by
    have := congrArg List.reverse h
    simpa [idDigits] using this
  have hpt : ∀ i, i < 16 → m / 10 ^ i % 10 = n / 10 ^ i % 10 := by
    intro i hi
    have := congrArg (fun l => l[i]?) h2
    simpa [List.getElem?_map, List.getElem?_range, hi] using this
  have := mod_pow_of_digits 16 m n hpt
  rwa [Nat.mod_eq_of_lt hm, Nat.mod_eq_of_lt hn] at this

/-- The generated identifiers are collision-free below `10 ^ 16`. -/
theorem idOfNat_inj (m n : Nat) (hm : m < 10 ^ 16) (hn : n < 10 ^ 16)
    (h : idOfNat m = idOfNat n) : m = n := by
  have hd : (idDigits m).map digitChar = (idDigits n).map digitChar := by
    have := congrArg String.data h
    simpa [idOfNat] using this
  exact idDigits_inj m n hm hn
    (map_digitChar_inj _ _ (idDigits_mem_lt m) (idDigits_mem_lt n) hd)

namespace api

/-- Replacing the entry of key `t` makes `find?` return it. -/
theorem find?_map_set (l : List (String × DBTable)) (t : String) (tbl : DBTable)
    (h : (l.find? (fun p => p.1 == t)).isSome) :
    (l.map (fun p => if p.1 == t then (t, tbl) else p)).find? (fun p => p.1 == t)
      = some (t, tbl) := by
  induction l with
  | nil => simp [List.find?] at h
  | cons kv rest ih =>
    by_cases hk : kv.1 == t
    · simp [List.find?, hk]
    · simp only [List.find?, hk] at h
      simp only [List.map_cons, if_neg hk]
      rw [List.find?_cons_of_neg _ (by simpa using hk)]
      exact ih h

/-- `dbFind` after `dbSet` of an existing table sees the new contents. -/
theorem dbFind_dbSet (db : DB) (t : String) (tbl : DBTable)
    (h : (dbFind db t).isSome) : dbFind (dbSet db t tbl) t = some tbl := by
  have h' : (db.tables.find? (fun p => p.1 == t)).isSome := by
    unfold dbFind at h
    cases hf : db.tables.find? (fun p => p.1 == t) with
    | none => rw [hf] at h; cases h
    | some p => simp
  unfold dbFind dbSet
  rw [find?_map_set db.tables t tbl h']
  rfl

/-- A successful single-row insert appends exactly that row. -/
theorem dbCreateRow_ok (db : DB) (t : String) (row : GoMap) (db' : DB)
    (h : dbCreateRow db t row = .ok db') :
    ∃ told, dbFind db t = some told
      ∧ dbFind db' t = some ⟨told.cols, told.uniqueCols, told.rows ++ [row]⟩
      ∧ db'.nextId = db.nextId := by
  unfold dbCreateRow at h
  cases hfind : dbFind db t with
  | none => rw [hfind] at h; cases h
  | some told =>
    rw [hfind] at h
    dsimp only at h
    by_cases h1 : row.any (fun kv => !(told.cols.contains kv.1)) = true
    · rw [if_pos h1] at h; cases h
    · rw [if_neg h1] at h
      by_cases h2 : uniqueViolation told row = true
      · rw [if_pos h2] at h; cases h
      · rw [if_neg h2] at h
        injection h with h3
        subst h3
        refine ⟨told, rfl, ?_, rfl⟩
        exact dbFind_dbSet db t _ (by simp [hfind])

/-- A successful multi-row insert appends exactly those rows in order. -/
theorem dbCreateRows_ok (t : String) : ∀ (rows : List GoMap) (db : DB) (told : DBTable)
    (db' : DB), dbFind db t = some told → dbCreateRows db t rows = .ok db' →
    dbFind db' t = some ⟨told.cols, told.uniqueCols, told.rows ++ rows⟩
      ∧ db'.nextId = db.nextId := by
  intro rows
  induction rows with
  | nil =>
    intro db told db' hfind h
    injection h with h1
    subst h1
    simpa using hfind
  | cons r rest ih =>
    intro db told db' hfind h
    unfold dbCreateRows at h
    cases hcr : dbCreateRow db t r with
    | error e => rw [hcr] at h; cases h
    | ok db1 =>
      rw [hcr] at h
      obtain ⟨told0, hf0, hf1, hn1⟩ := dbCreateRow_ok db t r db1 hcr
      rw [hfind] at hf0
      injection hf0 with hf0
      subst hf0
      obtain ⟨hfin, hnfin⟩ := ih db1 _ db' hf1 h
      constructor
      · simpa [List.append_assoc] using hfin
      · rw [hnfin, hn1]

/-- The id loop stores the successive generator values, one per row. -/
theorem assignIds_ids : ∀ (rows : List GoMap) (n : Nat),
    (assignIds rows n).map (fun r => lookupStr r "id")
      = (List.range rows.length).map (fun i => some (Value.vStr (idOfNat (n + i)))) := by
  intro rows
  induction rows with
  | nil => intro n; rfl
  | cons r rest ih =>
    intro n
    simp only [assignIds, List.map_cons, List.length_cons, List.range_succ_eq_map,
      List.map_map]
    refine congrArg₂ List.cons ?_ ?_
    · simp [lookupStr_setKey]
    · rw [ih (n + 1)]
      apply List.map_congr_left
      intro i hi
      have harith : n + 1 + i = n + (i + 1) := by omega
      simp [Function.comp, harith]

/-- The id loop keeps the number of rows. -/
theorem assignIds_length (rows : List GoMap) (n : Nat) :
    (assignIds rows n).length = rows.length := by
  induction rows generalizing n with
  | nil => rfl
  | cons r rest ih => simp [assignIds, ih]

end api

/-- **C10** (confirmed): for every insert step, singular or multiple, and
every caller input, the id stored for each created row is the freshly
generated 16-character identifier assigned after template binding: the
row reaching the table carries `idOfNat` of the generator counter at that
point — any `id` produced by the template or supplied by the caller is
overwritten and never persisted (unprefixed template keys are the only
caller data copied at all) — the recorded output for a singular insert is
that same generated id, each row of a multiple insert receives the next
counter value in order, every generated identifier has 16 characters, and
identifiers of distinct counter values below `10 ^ 16` are distinct. -/
theorem insert_ids_generated_after_binding :
    (∀ (nm tbl : String) (values : GoMap) (flt : List api.GFilter) (cols : List String)
       (callerData saved : GoMap) (userID : String) (db : api.DB)
       (saved' : GoMap) (db' : api.DB),
      api.execStep ⟨nm, "insert", tbl, false, values, flt, cols⟩ callerData saved userID db
          = .ok saved' db' →
      ∃ told row, api.dbFind db tbl = some told
        ∧ api.dbFind db' tbl
            = some ⟨told.cols, told.uniqueCols, told.rows ++ [row]⟩
        ∧ lookupStr row "id" = some (.vStr (idOfNat db.nextId))
        ∧ saved' = setKey saved nm (.vStr (idOfNat db.nextId))
        ∧ db'.nextId = db.nextId + 1)
    ∧ (∀ (nm tbl : String) (values : GoMap) (flt : List api.GFilter) (cols : List String)
       (callerData saved : GoMap) (userID : String) (db : api.DB)
       (saved' : GoMap) (db' : api.DB),
      api.execStep ⟨nm, "insert", tbl, true, values, flt, cols⟩ callerData saved userID db
          = .ok saved' db' →
      ∃ rows, rows.map (fun r => lookupStr r "id")
            = (List.range rows.length).map (fun i => some (.vStr (idOfNat (db.nextId + i))))
        ∧ saved' = saved
        ∧ ∀ told, api.dbFind db tbl = some told →
            api.dbFind db' tbl = some ⟨told.cols, told.uniqueCols, told.rows ++ rows⟩)
    ∧ (∀ n, (idOfNat n).length = 16)
    ∧ (∀ m n, m < 10 ^ 16 → n < 10 ^ 16 → idOfNat m = idOfNat n → m = n) := by
  refine ⟨?_, ?_, idOfNat_length, idOfNat_inj⟩
  · intro nm tbl values flt cols callerData saved userID db saved' db' h
    unfold api.execStep at h
    simp only [] at h
    cases hval : goGet callerData nm with
    | vObj input =>
      rw [hval] at h
      dsimp only at h
      cases hb : api.BindSingularInput values input saved userID with
      | none => rw [hb] at h; cases h
      | some row =>
        rw [hb] at h
        dsimp only at h
        cases hcr : api.dbCreateRow { db with nextId := db.nextId + 1 } tbl
            (setKey row "id" (.vStr (idOfNat db.nextId))) with
        | error e => rw [hcr] at h; cases h
        | ok db1 =>
          rw [hcr] at h
          injection h with h1 h2
          obtain ⟨told, hf0, hf1, hn⟩ := api.dbCreateRow_ok _ tbl _ db1 hcr
          refine ⟨told, setKey row "id" (.vStr (idOfNat db.nextId)), hf0, ?_, ?_, ?_, ?_⟩
          · rw [← h2]; exact hf1
          · exact lookupStr_setKey row "id" _
          · rw [← h1]
            congr 1
            simp [goGet, lookupStr_setKey]
          · rw [← h2, hn]
    | vNull => rw [hval] at h; cases h
    | vBool b => rw [hval] at h; cases h
    | vNum n => rw [hval] at h; cases h
    | vStr s => rw [hval] at h; cases h
    | vArr xs => rw [hval] at h; cases h
  · intro nm tbl values flt cols callerData saved userID db saved' db' h
    unfold api.execStep at h
    simp only [] at h
    cases hval : goGet callerData nm with
    | vArr inputs =>
      rw [hval] at h
      dsimp only at h
      cases hb : api.BindMultipleInput values inputs saved userID with
      | none => rw [hb] at h; cases h
      | some binded =>
        rw [hb] at h
        dsimp only at h
        cases hcr : api.dbCreateRows
            { db with nextId := db.nextId + (api.assignIds binded db.nextId).length }
            tbl (api.assignIds binded db.nextId) with
        | error e => rw [hcr] at h; cases h
        | ok db1 =>
          rw [hcr] at h
          injection h with h1 h2
          refine ⟨api.assignIds binded db.nextId, ?_, h1.symm, ?_⟩
          · rw [api.assignIds_ids, api.assignIds_length]
          · intro told hfind
            rw [← h2]
            exact (api.dbCreateRows_ok tbl (api.assignIds binded db.nextId)
              { db with nextId := db.nextId + (api.assignIds binded db.nextId).length }
              told db1 hfind hcr).1
    | vNull => rw [hval] at h; cases h
    | vBool b => rw [hval] at h; cases h
    | vNum n => rw [hval] at h; cases h
    | vStr s => rw [hval] at h; cases h
    | vObj fs => rw [hval] at h; cases h


namespace api

/-- The database state after the C10 witness step ran. -/
def c10WitDb : DB :=
  ⟨[("ta", ⟨["id", "nm"], [], [[("nm", .vStr "n1"), ("id", .vStr (idOfNat 0))]]⟩),
    ("tb", ⟨["id", "fk"], ["fk"], []⟩)], 1⟩

end api

/-- Witness for C10: the singular clause applied to the concrete first
step of the C4 pipeline. -/
theorem insert_ids_generated_after_binding_witness :
    ∃ told row, api.dbFind api.c4DbOk "ta" = some told
      ∧ api.dbFind api.c10WitDb "ta"
          = some ⟨told.cols, told.uniqueCols, told.rows ++ [row]⟩
      ∧ lookupStr row "id" = some (.vStr (idOfNat 0))
      ∧ [("A", Value.vStr (idOfNat 0))] = setKey [] "A" (.vStr (idOfNat 0))
      ∧ api.c10WitDb.nextId = 0 + 1 :=
  insert_ids_generated_after_binding.1 "A" "ta" [("nm", .vStr "nm")] [] []
    api.c4Caller [] "u1" api.c4DbOk [("A", .vStr (idOfNat 0))] api.c10WitDb rfl
